import Mathlib

/-!
Verification of the `UpaiLLM` adapter (`src/upairag/models/UpaiLLM.py`).

The adapter holds a model identifier, an access token and an open mapping of
extra parameters; it builds request payloads, delegates to an external
batch-completion callable, and maps responses and exceptions into a uniform
record shape.  We embed the Python code shallowly:

* Python dictionaries become association lists `List (String × Value)` with
  first-match lookup, point-wise replacement on update (preserving position)
  and append for fresh keys — the observable behaviour of an insertion-ordered
  dict.
* Python values occurring in this program become the inductive `Value`
  (`None`, strings, numbers, lists of message sequences).
* Raising becomes `Except String`, the carried string being `str(exception)`;
  an out-of-range list subscript carries Python's message
  `"list index out of range"`.
* The external `batch_completion` callable is a parameter from payloads to
  `Except String (List Response)`: it may raise (with a stringified error) or
  return any number of responses.
* The `print` in debug mode is modelled as an emitted trace, returned as the
  second component of `process_batch_prompts`, so that its presence or absence
  is visible without affecting the record component.
-/

/-- Chat message object: a dict with the keys `role` and `content`, as in the
data model of the adapter (every message carries both keys). -/
structure Message where
  role : String
  content : String
  deriving DecidableEq, Repr

/-- Python values appearing in this program: `None`, strings, numbers
(`temperature` literals; modelled as rationals, no arithmetic is performed on
them), and lists of message sequences (the `messages` payload entry). -/
inductive Value where
  | null : Value
  | str : String → Value
  | num : ℚ → Value
  | msgs : List (List Message) → Value
  deriving DecidableEq, Repr

/-- Python truthiness for `Value`: `None`, `""`, `0` and `[]` are falsy. -/
def Value.truthy : Value → Bool
  | .null => false
  | .str s => s != ""
  | .num q => q != 0
  | .msgs m => !m.isEmpty

/-- Python `a or b`: returns `a` when `a` is truthy, else `b`. -/
def pyOr (a b : Value) : Value :=
  if a.truthy then a else b

/-- First-match lookup in an insertion-ordered dict, as `d[k]` / `k in d`. -/
def dlookup : List (String × Value) → String → Option Value
  | [], _ => none
  | kv :: rest, k => if kv.1 = k then some kv.2 else dlookup rest k

/-- Python `d.get(k)`: the stored value, or `None` when the key is absent. -/
def dget (d : List (String × Value)) (k : String) : Value :=
  (dlookup d k).getD .null

/-- Python `d[k] = v` for one key-value pair: replace the value in place when
the key is present (position preserved), append otherwise. -/
def updateOne (d : List (String × Value)) (kv : String × Value) : List (String × Value) :=
  if d.any (fun p => p.1 = kv.1) then
    d.map (fun p => if p.1 = kv.1 then kv else p)
  else
    d ++ [kv]

/-- Python `d.update(u)`: assign every entry of `u` into `d`, in order. -/
def dictUpdate (d : List (String × Value)) : List (String × Value) → List (String × Value)
  | [] => d
  | kv :: rest => dictUpdate (updateOne d kv) rest

/-- Adapter state after construction: the three attributes `__init__` stores
(`self.llm_params`, `self.llm_identifier`, `self.access_token`). -/
structure UpaiLLM where
  llm_params : List (String × Value)
  llm_identifier : Value
  access_token : Value
  deriving DecidableEq, Repr

/-- Embedding of `UpaiLLM.__init__`: resolve `llm_params` to `{}` when absent,
resolve identifier and token with `or`-fallback to `llm_params`, then raise
`ValueError` (the `.error` branch) when either resolved attribute is falsy. -/
def UpaiLLM.init (llm_identifier access_token : Value)
    (llm_params : Option (List (String × Value))) : Except String UpaiLLM :=
  let params := llm_params.getD []
  let self : UpaiLLM :=
    { llm_params := params
      llm_identifier := pyOr llm_identifier (dget params "model")
      access_token := pyOr access_token (dget params "access_token") }
  if self.access_token.truthy = false then
    .error "Access token must be provided either directly or in the llm_params."
  else if self.llm_identifier.truthy = false then
    .error "LLM model identifier must be provided either directly or in the llm_params."
  else
    .ok self

/-- Embedding of `UpaiLLM.construct_request_payload`: the base dict with keys
`model`, `messages`, `temperature` (fixed `0.0`), `api_key`, updated with
`self.llm_params` when that dict is non-empty (truthy). -/
def UpaiLLM.construct_request_payload (self : UpaiLLM)
    (prompt_sequences : List (List Message)) : List (String × Value) :=
  let request_payload : List (String × Value) :=
    [("model", self.llm_identifier),
     ("messages", .msgs prompt_sequences),
     ("temperature", .num 0),
     ("api_key", self.access_token)]
  if self.llm_params.isEmpty then request_payload
  else dictUpdate request_payload self.llm_params

/-- State-passing view of the `construct_request_payload` method call: the
method only reads `self`, so the post-call instance is the unchanged `self`. -/
def UpaiLLM.construct_request_payload_call (self : UpaiLLM)
    (prompt_sequences : List (List Message)) : List (String × Value) × UpaiLLM :=
  (self.construct_request_payload prompt_sequences, self)

/-- One element of a response's `choices` list. -/
structure Choice where
  message : Message
  deriving DecidableEq, Repr

/-- The `usage` object of a response, exposing `to_dict()`. -/
structure UsageStats where
  data : List (String × Value)
  deriving DecidableEq, Repr

/-- Embedding of `usage.to_dict()`. -/
def UsageStats.to_dict (u : UsageStats) : List (String × Value) :=
  u.data

/-- External response: a `choices` list, and a `usage` attribute that may be
absent (`hasattr(response, "usage")` is `usage.isSome`). -/
structure Response where
  choices : List Choice
  usage : Option UsageStats
  deriving DecidableEq, Repr

/-- One element of the list `process_batch_prompts` returns: the dict
`{"status": True, "content": …, "original_query": …, "usage": …}` or
`{"status": False, "error": …, "original_query": …}`. -/
inductive ResultRecord where
  | success (content : String) (original_query : String)
      (usage : Option (List (String × Value))) : ResultRecord
  | failure (error : String) (original_query : String) : ResultRecord
  deriving DecidableEq, Repr

/-- The `status` entry of a result record. -/
def ResultRecord.status : ResultRecord → Bool
  | .success .. => true
  | .failure .. => false

/-- Python `l[0]`: the head, or an `IndexError` whose `str` is
`"list index out of range"`. -/
def headE {α : Type} : List α → Except String α
  | [] => .error "list index out of range"
  | x :: _ => .ok x

/-- List comprehension `[f x for x in l]` evaluated left to right inside a
`try`: the first element whose construction raises aborts the whole list. -/
def mapE {α β : Type} (f : α → Except String β) : List α → Except String (List β)
  | [] => .ok []
  | x :: xs =>
    match f x with
    | .error e => .error e
    | .ok y =>
      match mapE f xs with
      | .error e => .error e
      | .ok ys => .ok (y :: ys)

/-- One element of the success comprehension: `response.choices[0]` and
`messages[0]` are subscripted (each may raise `IndexError`), and `usage` is
converted with `to_dict()` when present. -/
def mkSuccess (rm : Response × List Message) : Except String ResultRecord :=
  match headE rm.1.choices with
  | .error e => .error e
  | .ok choice0 =>
    match headE rm.2 with
    | .error e => .error e
    | .ok message0 =>
      .ok (.success choice0.message.content message0.content
            (rm.1.usage.map UsageStats.to_dict))

/-- One element of the failure comprehension in the `except` handler:
`messages[0]` is subscripted, so it too may raise `IndexError`. -/
def mkFailure (e : String) (messages : List Message) : Except String ResultRecord :=
  match headE messages with
  | .error e2 => .error e2
  | .ok message0 => .ok (.failure e message0.content)

/-- Embedding of `UpaiLLM.process_batch_prompts`.  `batch_completion` is the
external collaborator applied to the constructed payload; it may raise (its
stringified error is the `Except.error` payload) or return any list of
responses.  First component: the returned record list, or the exception that
escapes the method.  Second component: the raw responses printed when
`debug_mode` is set (reached only when the external call returned). -/
def UpaiLLM.process_batch_prompts (self : UpaiLLM)
    (batch_completion : List (String × Value) → Except String (List Response))
    (prompt_sequences : List (List Message)) (debug_mode : Bool) :
    Except String (List ResultRecord) × Option (List Response) :=
  match batch_completion (self.construct_request_payload prompt_sequences) with
  | .error e => (mapE (mkFailure e) prompt_sequences, none)
  | .ok llm_responses =>
    let trace := if debug_mode then some llm_responses else none
    match mapE mkSuccess (llm_responses.zip prompt_sequences) with
    | .ok records => (.ok records, trace)
    | .error e => (mapE (mkFailure e) prompt_sequences, trace)

/-- Spec-side description: the first message's content of a prompt sequence
(the "original query" of the data model), defaulting on the empty sequence. -/
def firstContent : List Message → String
  | [] => ""
  | m :: _ => m.content

/-- Spec-side description: the first choice's message content of a response,
defaulting on an empty choices list. -/
def firstChoiceContent (r : Response) : String :=
  match r.choices with
  | [] => ""
  | c :: _ => c.message.content

theorem dlookup_map_replace (d : List (String × Value)) (kv : String × Value)
    (k : String) :
    dlookup (d.map (fun p => if p.1 = kv.1 then kv else p)) k =
      if k = kv.1 then (dlookup d k).map (fun _ => kv.2) else dlookup d k := by
  induction d with
  | nil => by_cases h : k = kv.1 <;> simp [dlookup, h]
  | cons p rest ih =>
    by_cases h1 : p.1 = kv.1
    · by_cases h2 : k = kv.1
      · subst h2
        simp [dlookup, h1]
      · simp [dlookup, h1, h2, Ne.symm h2, ih]
    · by_cases h2 : k = kv.1
      · subst h2
        simp [dlookup, h1, ih]
      · simp [dlookup, h1, h2, ih]

theorem dlookup_append_single (d : List (String × Value)) (kv : String × Value)
    (k : String) :
    dlookup (d ++ [kv]) k =
      match dlookup d k with
      | some v => some v
      | none => if kv.1 = k then some kv.2 else none := by
  induction d with
  | nil => simp [dlookup]
  | cons p rest ih =>
    by_cases h : p.1 = k <;> simp [dlookup, h, ih]

theorem any_key_eq_isSome (d : List (String × Value)) (c : String) :
    (d.any (fun p => p.1 = c)) = (dlookup d c).isSome := by
  induction d with
  | nil => simp [dlookup]
  | cons p rest ih =>
    by_cases h : p.1 = c <;> simp [dlookup, h, ih]

theorem dlookup_eq_none_of_not_mem (d : List (String × Value)) (c : String)
    (h : c ∉ d.map Prod.fst) : dlookup d c = none := by
  induction d with
  | nil => simp [dlookup]
  | cons p rest ih =>
    simp only [List.map_cons, List.mem_cons] at h
    push_neg at h
    simp [dlookup, Ne.symm h.1, ih h.2]

theorem dlookup_updateOne (d : List (String × Value)) (kv : String × Value)
    (k : String) :
    dlookup (updateOne d kv) k = if k = kv.1 then some kv.2 else dlookup d k := by
  unfold updateOne
  by_cases hany : (d.any (fun p => p.1 = kv.1)) = true
  · rw [if_pos hany, dlookup_map_replace]
    rw [any_key_eq_isSome] at hany
    by_cases hk : k = kv.1
    · rw [if_pos hk, if_pos hk, hk]
      cases hv : dlookup d kv.1 with
      | none => rw [hv] at hany; simp at hany
      | some v => simp [hv]
    · simp [hk]
  · rw [if_neg hany, dlookup_append_single]
    rw [any_key_eq_isSome] at hany
    by_cases hk : k = kv.1
    · have hnone : dlookup d k = none := by
        rw [hk]
        exact Option.not_isSome_iff_eq_none.mp hany
      rw [hnone]
      simp [hk]
    · cases hv : dlookup d k with
      | none => simp [Ne.symm hk, hk]
      | some v => simp [hk]

theorem dlookup_dictUpdate (u d : List (String × Value)) (k : String)
    (hu : (u.map Prod.fst).Nodup) :
    dlookup (dictUpdate d u) k =
      match dlookup u k with
      | some v => some v
      | none => dlookup d k := by
  induction u generalizing d with
  | nil => simp [dictUpdate, dlookup]
  | cons kv rest ih =>
    simp only [List.map_cons, List.nodup_cons] at hu
    rw [dictUpdate, ih _ hu.2]
    by_cases hk : k = kv.1
    · have hrest : dlookup rest k = none := by
        rw [hk]
        exact dlookup_eq_none_of_not_mem rest kv.1 hu.1
      rw [hrest]
      simp [dlookup, dlookup_updateOne, hk]
    · cases hv : dlookup rest k with
      | none => simp [dlookup, dlookup_updateOne, Ne.symm hk, hk, hv]
      | some v => simp [dlookup, Ne.symm hk, hv]

theorem mapE_length {α β : Type} (f : α → Except String β) (l : List α)
    (out : List β) (h : mapE f l = .ok out) : out.length = l.length := by
  induction l generalizing out with
  | nil =>
    simp only [mapE] at h
    cases h
    rfl
  | cons x xs ih =>
    rw [mapE] at h
    cases hx : f x with
    | error e => rw [hx] at h; exact Except.noConfusion h
    | ok y =>
      rw [hx] at h
      cases hxs : mapE f xs with
      | error e => rw [hxs] at h; exact Except.noConfusion h
      | ok ys =>
        rw [hxs] at h
        cases h
        simp [ih ys hxs]

theorem mapE_congr_ok {α β : Type} (f : α → Except String β) (g : α → β)
    (l : List α) (h : ∀ x ∈ l, f x = .ok (g x)) : mapE f l = .ok (l.map g) := by
  induction l with
  | nil => rfl
  | cons x xs ih =>
    have hx : f x = .ok (g x) := h x (List.mem_cons_self x xs)
    have hxs : mapE f xs = .ok (xs.map g) :=
      ih (fun y hy => h y (List.mem_cons_of_mem x hy))
    simp [mapE, hx, hxs]

theorem mapE_mem {α β : Type} (f : α → Except String β) (l : List α)
    (out : List β) (h : mapE f l = .ok out) :
    ∀ y ∈ out, ∃ x ∈ l, f x = .ok y := by
  induction l generalizing out with
  | nil =>
    simp only [mapE] at h
    cases h
    simp
  | cons x xs ih =>
    rw [mapE] at h
    cases hx : f x with
    | error e => rw [hx] at h; exact Except.noConfusion h
    | ok y =>
      rw [hx] at h
      cases hxs : mapE f xs with
      | error e => rw [hxs] at h; exact Except.noConfusion h
      | ok ys =>
        rw [hxs] at h
        cases h
        intro z hz
        rcases List.mem_cons.mp hz with hz | hz
        · exact ⟨x, List.mem_cons_self x xs, hz ▸ hx⟩
        · rcases ih ys hxs z hz with ⟨w, hw, hfw⟩
          exact ⟨w, List.mem_cons_of_mem x hw, hfw⟩

theorem mkFailure_ok (e : String) (m : List Message) (hm : m ≠ []) :
    mkFailure e m = .ok (.failure e (firstContent m)) := by
  cases m with
  | nil => exact absurd rfl hm
  | cons x xs => rfl

theorem mkSuccess_ok (rm : Response × List Message) (hc : rm.1.choices ≠ [])
    (hm : rm.2 ≠ []) :
    mkSuccess rm = .ok (.success (firstChoiceContent rm.1) (firstContent rm.2)
      (rm.1.usage.map UsageStats.to_dict)) := by
  obtain ⟨r, m⟩ := rm
  cases hch : r.choices with
  | nil => exact absurd hch hc
  | cons c cs =>
    cases m with
    | nil => exact absurd rfl hm
    | cons x xs =>
      simp [mkSuccess, headE, hch, firstChoiceContent, firstContent]

theorem mapE_mkFailure_ok (e : String) (ps : List (List Message))
    (h : ∀ m ∈ ps, m ≠ []) :
    mapE (mkFailure e) ps = .ok (ps.map (fun m => .failure e (firstContent m))) :=
  mapE_congr_ok _ _ _ (fun m hm => mkFailure_ok e m (h m hm))

/-- Spec-side classification: a configuration value that is a string or
absent (`None`), as the data model types identifier and token. -/
def strOrNull : Value → Bool
  | .null => true
  | .str _ => true
  | .num _ => false
  | .msgs _ => false

/-- Spec-side notion of an "empty/absent" configuration value. -/
def emptyOrAbsent (v : Value) : Prop :=
  v = .null ∨ v = .str ""

/-- Spec-side notion of an explicit argument being "given": absent (`None`,
the default) or a non-empty string. -/
def givenStr : Value → Bool
  | .null => true
  | .str s => s != ""
  | .num _ => false
  | .msgs _ => false

theorem strOrNull_pyOr (a b : Value) (ha : strOrNull a = true)
    (hb : strOrNull b = true) : strOrNull (pyOr a b) = true := by
  unfold pyOr
  split
  · exact ha
  · exact hb

theorem truthy_false_iff_emptyOrAbsent (v : Value) (h : strOrNull v = true) :
    v.truthy = false ↔ emptyOrAbsent v := by
  cases v with
  | null => simp [Value.truthy, emptyOrAbsent]
  | str s => simp [Value.truthy, emptyOrAbsent, bne]
  | num q => simp [strOrNull] at h
  | msgs m => simp [strOrNull] at h

theorem pyOr_givenStr (v x : Value) (h : givenStr v = true) :
    pyOr v x = if v = .null then x else v := by
  cases v with
  | null => simp [pyOr, Value.truthy]
  | str s =>
    simp only [givenStr] at h
    simp [pyOr, Value.truthy, h]
  | num q => simp [givenStr] at h
  | msgs m => simp [givenStr] at h

/-- C7: `construct_request_payload` is deterministic and idempotent — in the
state-passing view of the method call, the stored configuration is returned
unchanged, and a second call on the post-call instance with the same input
yields a structurally identical payload. -/
theorem construct_request_payload_idempotent (a : UpaiLLM)
    (ps : List (List Message)) :
    (a.construct_request_payload_call ps).2 = a ∧
    ((a.construct_request_payload_call ps).2.construct_request_payload_call ps).1 =
      (a.construct_request_payload_call ps).1 :=
  ⟨rfl, rfl⟩

/-- C8: the `debug_mode` flag does not influence the returned records — for
every adapter, every batch and every fixed behaviour of the external call,
the record component of `process_batch_prompts` is the same with
`debug_mode = true` as with `debug_mode = false` (only the emitted trace
differs). -/
theorem debug_mode_noninterference (a : UpaiLLM)
    (bc : List (String × Value) → Except String (List Response))
    (ps : List (List Message)) :
    (a.process_batch_prompts bc ps true).1 = (a.process_batch_prompts bc ps false).1 := by
  unfold UpaiLLM.process_batch_prompts
  cases bc (a.construct_request_payload ps) with
  | error e => rfl
  | ok rs =>
    dsimp only
    cases h : mapE mkSuccess (rs.zip ps) <;> simp [h]

/-- C4: construction raises (`ValueError`, the spec's ConfigurationError)
exactly when the effective access token or the effective model identifier —
each resolved by `or`-fallback through `llm_params` — is empty or absent;
otherwise it succeeds, storing exactly the resolved configuration. -/
theorem init_configuration_error_iff (li tok : Value)
    (lp : Option (List (String × Value)))
    (hli : strOrNull li = true) (htok : strOrNull tok = true)
    (hm : strOrNull (dget (lp.getD []) "model") = true)
    (ht : strOrNull (dget (lp.getD []) "access_token") = true) :
    ((∃ e, UpaiLLM.init li tok lp = .error e) ↔
      (emptyOrAbsent (pyOr tok (dget (lp.getD []) "access_token")) ∨
       emptyOrAbsent (pyOr li (dget (lp.getD []) "model")))) ∧
    (∀ llm, UpaiLLM.init li tok lp = .ok llm →
      llm.llm_params = lp.getD [] ∧
      llm.llm_identifier = pyOr li (dget (lp.getD []) "model") ∧
      llm.access_token = pyOr tok (dget (lp.getD []) "access_token")) := by
  have hT := strOrNull_pyOr tok (dget (lp.getD []) "access_token") htok ht
  have hI := strOrNull_pyOr li (dget (lp.getD []) "model") hli hm
  rw [← truthy_false_iff_emptyOrAbsent _ hT, ← truthy_false_iff_emptyOrAbsent _ hI]
  by_cases h1 : (pyOr tok (dget (lp.getD []) "access_token")).truthy = false <;>
    by_cases h2 : (pyOr li (dget (lp.getD []) "model")).truthy = false <;>
    simp [UpaiLLM.init, h1, h2]

/-- Witness for C4: with no explicit arguments and no `llm_params`, the
resolved token is absent, so construction fails. -/
theorem init_configuration_error_iff_witness :
    ((∃ e, UpaiLLM.init Value.null Value.null none = .error e) ↔
      (emptyOrAbsent (pyOr Value.null (dget ((none : Option (List (String × Value))).getD []) "access_token")) ∨
       emptyOrAbsent (pyOr Value.null (dget ((none : Option (List (String × Value))).getD []) "model")))) ∧
    (∀ llm, UpaiLLM.init Value.null Value.null none = .ok llm →
      llm.llm_params = (none : Option (List (String × Value))).getD [] ∧
      llm.llm_identifier = pyOr Value.null (dget ((none : Option (List (String × Value))).getD []) "model") ∧
      llm.access_token = pyOr Value.null (dget ((none : Option (List (String × Value))).getD []) "access_token")) :=
  init_configuration_error_iff Value.null Value.null none (by decide) (by decide)
    (by decide) (by decide)

/-- C5: for every successful construction, the stored identifier equals the
explicit `llm_identifier` when one is given, else `llm_params["model"]`, and
the stored token equals the explicit `access_token` when given, else
`llm_params["access_token"]`; the passed `llm_params` is stored as given. -/
theorem init_resolution (li tok : Value) (lp : Option (List (String × Value)))
    (llm : UpaiLLM)
    (hli : givenStr li = true) (htok : givenStr tok = true)
    (hok : UpaiLLM.init li tok lp = .ok llm) :
    llm.llm_identifier = (if li = .null then dget (lp.getD []) "model" else li) ∧
    llm.access_token = (if tok = .null then dget (lp.getD []) "access_token" else tok) ∧
    llm.llm_params = lp.getD [] := by
  simp only [UpaiLLM.init] at hok
  by_cases h1 : (pyOr tok (dget (lp.getD []) "access_token")).truthy = false
  · rw [if_pos h1] at hok
    exact Except.noConfusion hok
  · rw [if_neg h1] at hok
    by_cases h2 : (pyOr li (dget (lp.getD []) "model")).truthy = false
    · rw [if_pos h2] at hok
      exact Except.noConfusion hok
    · rw [if_neg h2] at hok
      cases hok
      refine ⟨?_, ?_, rfl⟩
      · exact pyOr_givenStr li _ hli
      · exact pyOr_givenStr tok _ htok

/-- Witness for C5: explicit token `"T"` with `llm_params = {"model": "m"}`
succeeds and resolves identifier `"m"` (from the params) and token `"T"`
(explicit). -/
theorem init_resolution_witness :
    UpaiLLM.init Value.null (Value.str "T") (some [("model", Value.str "m")])
        = .ok ⟨[("model", Value.str "m")], Value.str "m", Value.str "T"⟩ ∧
    ((⟨[("model", Value.str "m")], Value.str "m", Value.str "T"⟩ : UpaiLLM).llm_identifier
        = (if (Value.null : Value) = Value.null
            then dget ((some [("model", Value.str "m")] : Option (List (String × Value))).getD []) "model"
            else Value.null) ∧
     (⟨[("model", Value.str "m")], Value.str "m", Value.str "T"⟩ : UpaiLLM).access_token
        = (if (Value.str "T" : Value) = Value.null
            then dget ((some [("model", Value.str "m")] : Option (List (String × Value))).getD []) "access_token"
            else Value.str "T") ∧
     (⟨[("model", Value.str "m")], Value.str "m", Value.str "T"⟩ : UpaiLLM).llm_params
        = (some [("model", Value.str "m")] : Option (List (String × Value))).getD []) :=
  ⟨rfl,
   init_resolution Value.null (Value.str "T") (some [("model", Value.str "m")])
     ⟨[("model", Value.str "m")], Value.str "m", Value.str "T"⟩
     (by decide) (by decide) rfl⟩

theorem dlookup_base (a : UpaiLLM) (ps : List (List Message)) (k : String) :
    dlookup [("model", a.llm_identifier), ("messages", Value.msgs ps),
             ("temperature", Value.num 0), ("api_key", a.access_token)] k =
      (if k = "model" then some a.llm_identifier
       else if k = "messages" then some (Value.msgs ps)
       else if k = "temperature" then some (Value.num 0)
       else if k = "api_key" then some a.access_token
       else none) := by
  by_cases h1 : k = "model"
  · subst h1; simp [dlookup]
  · by_cases h2 : k = "messages"
    · subst h2; simp [dlookup]
    · by_cases h3 : k = "temperature"
      · subst h3; simp [dlookup]
      · by_cases h4 : k = "api_key"
        · subst h4; simp [dlookup]
        · simp [dlookup, h1, h2, h3, h4, Ne.symm h1, Ne.symm h2, Ne.symm h3,
            Ne.symm h4]

/-- C6: the payload produced by `construct_request_payload` maps `model` to
the stored identifier, `messages` to the input sequences, `temperature` to
the fixed `0.0` and `api_key` to the stored token, overlaid with every entry
of the stored `llm_params`, which wins on any key collision — stated as a
per-key lookup characterization of the resulting dict. -/
theorem construct_request_payload_lookup (a : UpaiLLM)
    (ps : List (List Message)) (k : String)
    (hnd : (a.llm_params.map Prod.fst).Nodup) :
    dlookup (a.construct_request_payload ps) k =
      match dlookup a.llm_params k with
      | some v => some v
      | none =>
        if k = "model" then some a.llm_identifier
        else if k = "messages" then some (Value.msgs ps)
        else if k = "temperature" then some (Value.num 0)
        else if k = "api_key" then some a.access_token
        else none := by
  unfold UpaiLLM.construct_request_payload
  by_cases hemp : a.llm_params.isEmpty
  · have hnil : a.llm_params = [] := List.isEmpty_iff.mp hemp
    rw [if_pos hemp, hnil]
    simp only [dlookup]
    exact dlookup_base a ps k
  · rw [if_neg hemp, dlookup_dictUpdate _ _ _ hnd]
    cases dlookup a.llm_params k with
    | some v => rfl
    | none => exact dlookup_base a ps k

/-- Witness for C6: an adapter whose `llm_params` is
`{"model": "m", "access_token": "T", "temperature": 0.9}` with stored
identifier `"m"` and token `"T"`, looked up at `"temperature"`: the payload
carries the overridden `0.9`, not the default `0.0`. -/
theorem construct_request_payload_lookup_witness :
    dlookup ((⟨[("model", Value.str "m"), ("access_token", Value.str "T"),
               ("temperature", Value.num (9/10))], Value.str "m",
               Value.str "T"⟩ : UpaiLLM).construct_request_payload []) "temperature" =
      match dlookup [("model", Value.str "m"), ("access_token", Value.str "T"),
               ("temperature", Value.num (9/10))] "temperature" with
      | some v => some v
      | none =>
        if "temperature" = "model" then some (Value.str "m")
        else if "temperature" = "messages" then some (Value.msgs [])
        else if "temperature" = "temperature" then some (Value.num 0)
        else if "temperature" = "api_key" then some (Value.str "T")
        else none :=
  construct_request_payload_lookup
    ⟨[("model", Value.str "m"), ("access_token", Value.str "T"),
      ("temperature", Value.num (9/10))], Value.str "m", Value.str "T"⟩
    [] "temperature" (by decide)

/-- C9 (implicit): when the stored `llm_params` itself contains a `messages`
key, the overlay replaces the prompt sequences in the submitted payload — the
payload's `messages` entry is `llm_params["messages"]`, not the input. -/
theorem llm_params_messages_override (a : UpaiLLM) (ps : List (List Message))
    (v : Value)
    (hnd : (a.llm_params.map Prod.fst).Nodup)
    (hv : dlookup a.llm_params "messages" = some v) :
    dlookup (a.construct_request_payload ps) "messages" = some v ∧
    (v ≠ Value.msgs ps →
      dlookup (a.construct_request_payload ps) "messages" ≠ some (Value.msgs ps)) := by
  have hne : ¬a.llm_params.isEmpty := by
    cases hp : a.llm_params with
    | nil => rw [hp] at hv; exact Option.noConfusion hv
    | cons x xs => simp [hp]
  have hmain : dlookup (a.construct_request_payload ps) "messages" = some v := by
    unfold UpaiLLM.construct_request_payload
    rw [if_neg hne, dlookup_dictUpdate _ _ _ hnd, hv]
  refine ⟨hmain, fun hvne hcontra => hvne ?_⟩
  rw [hmain] at hcontra
  exact Option.some.inj hcontra

/-- Witness for C9: `llm_params = {"messages": "hijacked"}` (a string value
standing in for any non-input value) makes the payload's `messages` entry
that value rather than the prompt sequences passed in. -/
theorem llm_params_messages_override_witness :
    dlookup ((⟨[("messages", Value.str "hijacked")], Value.str "m",
               Value.str "T"⟩ : UpaiLLM).construct_request_payload
              [[⟨"user", "q1"⟩]]) "messages" = some (Value.str "hijacked") ∧
    (Value.str "hijacked" ≠ Value.msgs [[⟨"user", "q1"⟩]] →
      dlookup ((⟨[("messages", Value.str "hijacked")], Value.str "m",
               Value.str "T"⟩ : UpaiLLM).construct_request_payload
              [[⟨"user", "q1"⟩]]) "messages" ≠ some (Value.msgs [[⟨"user", "q1"⟩]])) :=
  llm_params_messages_override
    ⟨[("messages", Value.str "hijacked")], Value.str "m", Value.str "T"⟩
    [[⟨"user", "q1"⟩]] (Value.str "hijacked") (by decide) (by decide)

theorem mkFailure_status (e : String) (m : List Message) (r : ResultRecord)
    (h : mkFailure e m = .ok r) : r.status = false := by
  unfold mkFailure at h
  cases hm : headE m with
  | error e2 => rw [hm] at h; exact Except.noConfusion h
  | ok m0 =>
    rw [hm] at h
    cases h
    rfl

theorem mkSuccess_status (rm : Response × List Message) (r : ResultRecord)
    (h : mkSuccess rm = .ok r) : r.status = true := by
  unfold mkSuccess at h
  cases hc : headE rm.1.choices with
  | error e2 => rw [hc] at h; exact Except.noConfusion h
  | ok c0 =>
    rw [hc] at h
    cases hm : headE rm.2 with
    | error e2 => rw [hm] at h; exact Except.noConfusion h
    | ok m0 =>
      rw [hm] at h
      cases h
      rfl

/-- C2: when the external batch-completion call raises, `process_batch_prompts`
returns exactly one Failure record per input prompt sequence, in input order,
each carrying the same stringified error and that sequence's first message's
content as `original_query` (batches of non-empty prompt sequences, as in the
data model). -/
theorem process_batch_failure_records (a : UpaiLLM)
    (bc : List (String × Value) → Except String (List Response))
    (ps : List (List Message)) (dbg : Bool) (e : String)
    (hext : bc (a.construct_request_payload ps) = .error e)
    (h : ∀ m ∈ ps, m ≠ []) :
    (a.process_batch_prompts bc ps dbg).1 =
      .ok (ps.map (fun m => .failure e (firstContent m))) := by
  unfold UpaiLLM.process_batch_prompts
  rw [hext]
  exact mapE_mkFailure_ok e ps h

/-- Witness for C2: a batch of three sequences with the external call raising
`"rate limited"` yields three Failure records in order, each with that error
and the sequence's first message content. -/
theorem process_batch_failure_records_witness :
    ((⟨[], Value.str "m", Value.str "T"⟩ : UpaiLLM).process_batch_prompts
        (fun _ => .error "rate limited")
        [[⟨"user", "q1"⟩], [⟨"user", "q2"⟩], [⟨"user", "q3"⟩]] false).1 =
      .ok (([[⟨"user", "q1"⟩], [⟨"user", "q2"⟩], [⟨"user", "q3"⟩]] :
            List (List Message)).map
        (fun m => .failure "rate limited" (firstContent m))) :=
  process_batch_failure_records ⟨[], Value.str "m", Value.str "T"⟩
    (fun _ => .error "rate limited")
    [[⟨"user", "q1"⟩], [⟨"user", "q2"⟩], [⟨"user", "q3"⟩]] false
    "rate limited" rfl (by decide)

/-- C3: when the external call returns one response per input sequence, the
method returns, for each (response, sequence) pair in input order, a Success
record with the response's first choice's message content, the sequence's
first message's content as `original_query`, and the response's usage
statistics converted to a mapping when present, else `None` (presupposing,
as the claim's wording does, that each response has a first choice and each
sequence a first message). -/
theorem process_batch_success_records (a : UpaiLLM)
    (bc : List (String × Value) → Except String (List Response))
    (ps : List (List Message)) (dbg : Bool) (rs : List Response)
    (hext : bc (a.construct_request_payload ps) = .ok rs)
    (_hlen : rs.length = ps.length)
    (hch : ∀ r ∈ rs, r.choices ≠ [])
    (hm : ∀ m ∈ ps, m ≠ []) :
    (a.process_batch_prompts bc ps dbg).1 =
      .ok ((rs.zip ps).map (fun rm =>
        .success (firstChoiceContent rm.1) (firstContent rm.2)
          (rm.1.usage.map UsageStats.to_dict))) := by
  have hall : ∀ rm ∈ rs.zip ps, mkSuccess rm =
      .ok (.success (firstChoiceContent rm.1) (firstContent rm.2)
            (rm.1.usage.map UsageStats.to_dict)) := by
    intro rm hrm
    obtain ⟨r, m⟩ := rm
    have hmem := List.of_mem_zip hrm
    exact mkSuccess_ok (r, m) (hch r hmem.1) (hm m hmem.2)
  unfold UpaiLLM.process_batch_prompts
  rw [hext]
  dsimp only
  rw [mapE_congr_ok mkSuccess
    (fun rm => .success (firstChoiceContent rm.1) (firstContent rm.2)
      (rm.1.usage.map UsageStats.to_dict)) (rs.zip ps) hall]

/-- Witness for C3: two sequences, two responses with contents `"A"` and
`"B"`: the result is the two Success records in order, with the original
query of each sequence. -/
theorem process_batch_success_records_witness :
    ((⟨[], Value.str "m", Value.str "T"⟩ : UpaiLLM).process_batch_prompts
        (fun _ => .ok [⟨[⟨⟨"assistant", "A"⟩⟩], none⟩, ⟨[⟨⟨"assistant", "B"⟩⟩], none⟩])
        [[⟨"user", "q1"⟩], [⟨"user", "q2"⟩]] false).1 =
      .ok ((([⟨[⟨⟨"assistant", "A"⟩⟩], none⟩, ⟨[⟨⟨"assistant", "B"⟩⟩], none⟩] :
              List Response).zip
            ([[⟨"user", "q1"⟩], [⟨"user", "q2"⟩]] : List (List Message))).map
        (fun rm => .success (firstChoiceContent rm.1) (firstContent rm.2)
          (rm.1.usage.map UsageStats.to_dict))) :=
  process_batch_success_records ⟨[], Value.str "m", Value.str "T"⟩
    (fun _ => .ok [⟨[⟨⟨"assistant", "A"⟩⟩], none⟩, ⟨[⟨⟨"assistant", "B"⟩⟩], none⟩])
    [[⟨"user", "q1"⟩], [⟨"user", "q2"⟩]] false
    [⟨[⟨⟨"assistant", "A"⟩⟩], none⟩, ⟨[⟨⟨"assistant", "B"⟩⟩], none⟩]
    rfl (by decide) (by decide) (by decide)

/-- Counterexample to C1 as stated: an adapter with two prompt sequences and
an external call that returns a single response produces a record list of
length 1, not the input length 2 — the success comprehension zips responses
with inputs and truncates to the shorter list. -/
theorem process_batch_length_cex :
    ((⟨[], Value.str "m", Value.str "T"⟩ : UpaiLLM).process_batch_prompts
        (fun _ => .ok [⟨[⟨⟨"assistant", "A"⟩⟩], none⟩])
        [[⟨"user", "q1"⟩], [⟨"user", "q2"⟩]] false).1 =
      .ok [.success "A" "q1" none] ∧
    ([[⟨"user", "q1"⟩], [⟨"user", "q2"⟩]] : List (List Message)).length = 2 ∧
    ([ResultRecord.success "A" "q1" none]).length ≠ 2 :=
  ⟨rfl, rfl, by decide⟩

/-- C1 amended: for every adapter and every batch of non-empty prompt
sequences, `process_batch_prompts` never raises; the record list's length is
at most the input length, and equals it whenever the external call raises,
and also whenever the external call returns at least one response per input
sequence (when it returns fewer, zip truncation shortens the output). -/
theorem process_batch_no_raise_length (a : UpaiLLM)
    (bc : List (String × Value) → Except String (List Response))
    (ps : List (List Message)) (dbg : Bool)
    (h : ∀ m ∈ ps, m ≠ []) :
    ∃ recs, (a.process_batch_prompts bc ps dbg).1 = .ok recs ∧
      recs.length ≤ ps.length ∧
      (∀ e, bc (a.construct_request_payload ps) = .error e →
        recs.length = ps.length) ∧
      (∀ rs, bc (a.construct_request_payload ps) = .ok rs →
        ps.length ≤ rs.length → recs.length = ps.length) := by
  unfold UpaiLLM.process_batch_prompts
  cases hext : bc (a.construct_request_payload ps) with
  | error e =>
    refine ⟨ps.map (fun m => .failure e (firstContent m)), ?_, by simp, ?_, ?_⟩
    · exact mapE_mkFailure_ok e ps h
    · intro e2 _
      simp
    · intro rs hrs
      exact Except.noConfusion hrs
  | ok rs =>
    dsimp only
    cases hmap : mapE mkSuccess (rs.zip ps) with
    | ok recs =>
      have hl := mapE_length _ _ _ hmap
      refine ⟨recs, by simp [hmap], ?_, ?_, ?_⟩
      · rw [hl, List.length_zip]
        exact min_le_right _ _
      · intro e he
        exact Except.noConfusion he
      · intro rs2 hrs2 hle
        cases hrs2
        rw [hl, List.length_zip]
        exact min_eq_right hle
    | error e2 =>
      refine ⟨ps.map (fun m => .failure e2 (firstContent m)), ?_, by simp, ?_, ?_⟩
      · simp only [hmap]
        exact mapE_mkFailure_ok e2 ps h
      · intro e3 he3
        exact Except.noConfusion he3
      · intro rs2 _ _
        simp

/-- Witness for the amended C1: one non-empty sequence with a raising
external call — the method returns a record list (of the input's length). -/
theorem process_batch_no_raise_length_witness :
    ∃ recs, ((⟨[], Value.str "m", Value.str "T"⟩ : UpaiLLM).process_batch_prompts
        (fun _ => .error "boom") [[⟨"user", "q1"⟩]] false).1 = .ok recs ∧
      recs.length ≤ ([[⟨"user", "q1"⟩]] : List (List Message)).length ∧
      (∀ e, (fun _ => (.error "boom" : Except String (List Response)))
          ((⟨[], Value.str "m", Value.str "T"⟩ : UpaiLLM).construct_request_payload
            [[⟨"user", "q1"⟩]]) = .error e →
        recs.length = ([[⟨"user", "q1"⟩]] : List (List Message)).length) ∧
      (∀ rs, (fun _ => (.error "boom" : Except String (List Response)))
          ((⟨[], Value.str "m", Value.str "T"⟩ : UpaiLLM).construct_request_payload
            [[⟨"user", "q1"⟩]]) = .ok rs →
        ([[⟨"user", "q1"⟩]] : List (List Message)).length ≤ rs.length →
        recs.length = ([[⟨"user", "q1"⟩]] : List (List Message)).length) :=
  process_batch_no_raise_length ⟨[], Value.str "m", Value.str "T"⟩
    (fun _ => .error "boom") [[⟨"user", "q1"⟩]] false (by decide)

/-- C10 (implicit): every record list actually returned (rather than an
exception escaping) is homogeneous in status — all Success or all Failure;
mixed outputs are impossible, because any extraction failure during the
success mapping aborts the whole comprehension and the handler rebuilds the
entire batch as Failure records. -/
theorem process_batch_status_homogeneous (a : UpaiLLM)
    (bc : List (String × Value) → Except String (List Response))
    (ps : List (List Message)) (dbg : Bool) (recs : List ResultRecord)
    (hok : (a.process_batch_prompts bc ps dbg).1 = .ok recs) :
    (∀ r ∈ recs, r.status = true) ∨ (∀ r ∈ recs, r.status = false) := by
  unfold UpaiLLM.process_batch_prompts at hok
  cases hext : bc (a.construct_request_payload ps) with
  | error e =>
    rw [hext] at hok
    dsimp only at hok
    right
    intro r hr
    rcases mapE_mem _ _ _ hok r hr with ⟨m, _, hfm⟩
    exact mkFailure_status _ _ _ hfm
  | ok rs =>
    rw [hext] at hok
    dsimp only at hok
    cases hmap : mapE mkSuccess (rs.zip ps) with
    | ok recs2 =>
      rw [hmap] at hok
      dsimp only at hok
      cases hok
      left
      intro r hr
      rcases mapE_mem _ _ _ hmap r hr with ⟨rm, _, hfm⟩
      exact mkSuccess_status _ _ hfm
    | error e =>
      rw [hmap] at hok
      dsimp only at hok
      right
      intro r hr
      rcases mapE_mem _ _ _ hok r hr with ⟨m, _, hfm⟩
      exact mkFailure_status _ _ _ hfm

/-- Witness for C10: a concrete run whose external call raises — the returned
records are homogeneous (here: all Failure). -/
theorem process_batch_status_homogeneous_witness :
    (∀ r ∈ [ResultRecord.failure "x" "q1"], r.status = true) ∨
    (∀ r ∈ [ResultRecord.failure "x" "q1"], r.status = false) :=
  process_batch_status_homogeneous ⟨[], Value.str "m", Value.str "T"⟩
    (fun _ => .error "x") [[⟨"user", "q1"⟩]] false
    [ResultRecord.failure "x" "q1"] rfl
